import Mathlib

set_option maxRecDepth 8000

/-!
Shallow embedding of the May voice assistant core logic
(`backend/may.py`).  Text is modelled as lists of characters; ambient
time, random choice and the external collaborators (emotion API,
language-model API, battery sensor, display socket) are modelled as
explicit oracle parameters.  Pure functions of the source become Lean
functions; the mutable session state (context window, reminder list,
battery-alert flags, display connection flag) is passed explicitly and
returned updated.
-/

/-- Text is a list of characters (Python `str`). -/
abbrev Str := List Char

/-- Python `str.lower()` (per-character; adequate for the ASCII data used here). -/
def lowerL (s : Str) : Str := s.map Char.toLower

/-- Python `str.strip()`: drop whitespace at both ends. -/
def stripL (s : Str) : Str :=
  ((s.dropWhile Char.isWhitespace).reverse.dropWhile Char.isWhitespace).reverse

/-- Worker for `removeAll`; the fuel argument only bounds recursion depth and
    is always supplied as the length of the text, which suffices because each
    step consumes at least one character. -/
def removeAllGo (pat : Str) : Nat → Str → Str
  | _, [] => []
  | 0, s => s
  | fuel + 1, c :: rest =>
    if pat ≠ [] ∧ pat.isPrefixOf (c :: rest) then
      removeAllGo pat fuel ((c :: rest).drop pat.length)
    else
      c :: removeAllGo pat fuel rest

/-- Python `text.replace(pat, "")`: remove every left-to-right,
    non-overlapping occurrence of `pat` from `text`. -/
def removeAll (pat s : Str) : Str := removeAllGo pat s.length s

/-- Python `pat in text` (substring containment). -/
def containsSub (pat : Str) : Str → Bool
  | [] => pat.isEmpty
  | c :: rest => pat.isPrefixOf (c :: rest) || containsSub pat rest

/-- Source line 80: `WAKE_WORDS = ["may"]`. -/
def WAKE_WORDS : List Str := [String.toList "may"]

/-- Source line 81: the fixed termination phrase list. -/
def TERMINATION_WORDS : List Str :=
  ["goodbye", "bye", "see you later", "talk to you later", "stop listening",
   "go to sleep", "sleep now"].map String.toList

/-- Loop body of `check_wake_word` (lines 456-459): first wake word that is a
    substring of the lowered text yields the stripped remainder. -/
def wake_scan (tl : Str) : List Str → Bool × Option Str
  | [] => (false, none)
  | w :: ws =>
    if containsSub w tl then
      let q := stripL (removeAll w tl)
      (true, if q.isEmpty then none else some q)
    else wake_scan tl ws

/-- `MayAssistant.check_wake_word` (lines 451-460).  The argument is
    `Option Str` because the listener may return `None`; `if not text`
    also catches the empty string. -/
def check_wake_word : Option Str → Bool × Option Str
  | none => (false, none)
  | some t => if t.isEmpty then (false, none) else wake_scan (lowerL t) WAKE_WORDS

/-- `MayAssistant.check_termination` (lines 462-467). -/
def check_termination : Option Str → Bool
  | none => false
  | some t =>
    if t.isEmpty then false
    else TERMINATION_WORDS.any (fun w => containsSub w (lowerL t))

/-- Spec-side reading of the wake-word sentence: remove only the FIRST
    case-insensitive occurrence of `pat` from the ORIGINAL (uncased) text.
    Used solely to compare the claim against the code. -/
def removeFirstCI (pat : Str) : Str → Str
  | [] => []
  | c :: rest =>
    if pat.isPrefixOf (lowerL (c :: rest)) then (c :: rest).drop pat.length
    else c :: removeFirstCI pat rest

/-- Spec-side query for the wake-word claim: the original utterance with the
    first case-insensitive wake-word occurrence removed, then trimmed. -/
def specWakeQuery (t : Str) : Str := stripL (removeFirstCI (String.toList "may") t)

/-- Service-call events observable from the response pipeline. -/
inductive Ev where
  | emotionCall : Ev
  | modelCall : Str → Ev
deriving DecidableEq, Repr

/-- Static configuration of the assistant: presence of the Hume credential
    and of the Anthropic model client. -/
structure Cfg where
  humeKey : Option Str
  anthropicClient : Bool

/-- Guard on lines 535 and 632: the Hume service is used only when a key is
    present, non-empty (`not self.hume_api_key` is true for an empty string)
    and not a placeholder starting with "YOUR". -/
def humeAvailable (cfg : Cfg) : Bool :=
  match cfg.humeKey with
  | none => false
  | some k => !k.isEmpty && !((String.toList "YOUR").isPrefixOf k)

/-- Emotion result record: `{"primary": ..., "score": ..., "top3": ...}`. -/
structure EmotionResult where
  primary : Str
  score : ℚ
  top3 : List (Str × ℚ)
deriving DecidableEq, Repr

/-- `MayAssistant.fallback_sentiment` (lines 519-531).  The TextBlob polarity
    is an external deterministic lexical function, modelled by the oracle
    `pol`; `none` models the `except` branch (analysis raised). -/
def fallback_sentiment (pol : Str → Option ℚ) (text : Str) : Str :=
  match pol text with
  | none => String.toList "neutral"
  | some p =>
    if (3 : ℚ)/10 < p then String.toList "positive"
    else if p < -((3 : ℚ)/10) then String.toList "negative"
    else String.toList "neutral"

/-- Sentiment-to-emotion map of lines 538 and 623:
    `{"positive": "Joy", "negative": "Sadness", "neutral": "Calm"}` with
    default "Calm". -/
def sentimentEmotion (s : Str) : Str :=
  if s = String.toList "positive" then String.toList "Joy"
  else if s = String.toList "negative" then String.toList "Sadness"
  else String.toList "Calm"

/-- Fallback emotion result (lines 536-541 and 621-626): bucketed sentiment
    with fixed score 0.5 and no secondary emotions. -/
def fallbackEmotion (pol : Str → Option ℚ) (text : Str) : EmotionResult :=
  ⟨sentimentEmotion (fallback_sentiment pol text), 1/2, []⟩

/-- `MayAssistant.detect_emotions_fast` (lines 533-626).  `svc` is the
    outcome of the Hume call: `some r` a parsed success, `none` any failure
    (bad status, parse error, exception).  The trace records whether the
    external service was contacted. -/
def detect_emotions_fast (cfg : Cfg) (svc : Option EmotionResult)
    (pol : Str → Option ℚ) (text : Str) : EmotionResult × List Ev :=
  if humeAvailable cfg = false then (fallbackEmotion pol text, [])
  else
    match svc with
    | some r => (r, [Ev.emotionCall])
    | none => (fallbackEmotion pol text, [Ev.emotionCall])

/-- Time-intent keywords (line 740). -/
def timeKeywords : List Str := ["time", "clock", "hour", "what time"].map String.toList

/-- Date-intent keywords (line 748). -/
def dateKeywords : List Str := ["date", "day is it", "today"].map String.toList

/-- Guard of the time-intent branch (line 740). -/
def timeMatch (q : Str) : Bool := timeKeywords.any (fun k => containsSub k (lowerL q))

/-- Guard of the date-intent branch (line 748). -/
def dateMatch (q : Str) : Bool := dateKeywords.any (fun k => containsSub k (lowerL q))

/-- Two-digit zero-padded decimal rendering, as `strftime` zero-pads the
    fields `%I` and `%M` (both are below 100). -/
def pad2 (n : Nat) : Str := [Nat.digitChar (n / 10 % 10), Nat.digitChar (n % 10)]

/-- Twelve-hour clock value of `strftime("%I")`. -/
def hour12 (h : Nat) : Nat := if h % 12 = 0 then 12 else h % 12

/-- AM/PM marker of `strftime("%p")`. -/
def meridiem (h : Nat) : Str :=
  if h < 12 then String.toList "AM" else String.toList "PM"

/-- Time reply of lines 741-743: `f"It's {now.strftime('%I:%M %p')}."`,
    with the current hour and minute passed explicitly. -/
def timeResponse (h mi : Nat) : Str :=
  String.toList "It\x27s " ++ pad2 (hour12 h) ++ ':' :: pad2 mi ++
    ' ' :: meridiem h ++ ['.']

/-- Date reply of lines 749-751, with the formatted date passed explicitly. -/
def dateResponse (dateStr : Str) : Str :=
  String.toList "Today is " ++ dateStr ++ ['.']

/-- Python `random.choice`, with the random draw supplied as a number. -/
def pyChoice (l : List Str) (rng : Nat) : Str := l.getD (rng % l.length) []

/-- Reply lists of the Calm bucket (line 651). -/
def calmReplies : List Str :=
  ["How can I help you?", "I\x27m listening.", "Go ahead, I\x27m here."].map String.toList

/-- Per-emotion reply table of `get_emotion_aware_response` (lines 644-654). -/
def emotionResponses : List (Str × List Str) :=
  [ (String.toList "Joy",
     ["I\x27m glad you\x27re happy!", "That\x27s wonderful to hear!",
      "Your positivity is contagious!"].map String.toList),
    (String.toList "Excitement",
     ["I love your enthusiasm!", "That sounds amazing!", "How exciting!"].map String.toList),
    (String.toList "Sadness",
     ["I\x27m here for you.", "Take your time, I\x27m listening.",
      "It\x27s okay to feel this way."].map String.toList),
    (String.toList "Distress",
     ["I understand this is difficult.", "You\x27re not alone in this.",
      "Let\x27s work through this together."].map String.toList),
    (String.toList "Anger",
     ["I hear your frustration.", "That sounds really challenging.",
      "Your feelings are valid."].map String.toList),
    (String.toList "Anxiety",
     ["Take a deep breath. I\x27m here.", "Let\x27s take this one step at a time.",
      "It\x27s okay to feel worried."].map String.toList),
    (String.toList "Calm", calmReplies),
    (String.toList "Surprise",
     ["Wow, that\x27s unexpected!", "Tell me more!", "Interesting!"].map String.toList),
    (String.toList "Fear",
     ["I\x27m here with you.", "You\x27re safe to share.",
      "Let\x27s talk about it."].map String.toList) ]

/-- Table lookup of line 656: `responses.get(emotion, responses["Calm"])`. -/
def emotionLookup (e : Str) : List Str :=
  match emotionResponses.find? (fun p => p.1 == e) with
  | some p => p.2
  | none => calmReplies

/-- Primary-emotion extraction of line 640:
    `emotions.get("primary", "Calm") if emotions else "Calm"`. -/
def primaryOf (emotions : Option EmotionResult) : Str :=
  match emotions with
  | some em => em.primary
  | none => String.toList "Calm"

/-- `MayAssistant.get_emotion_aware_response` (lines 638-658). -/
def get_emotion_aware_response (rng : Nat) (emotions : Option EmotionResult) : Str :=
  pyChoice (emotionLookup (primaryOf emotions)) rng

/-- Casual-opener table of `get_casual_response` (lines 664-670). -/
def casualResponses : List (Str × List Str) :=
  [ (String.toList "how are you",
     ["I\x27m doing great, thanks for asking!", "All good here!",
      "I\x27m well, how about you?"].map String.toList),
    (String.toList "what\x27s up",
     ["Not much, just here to help!", "Ready to assist!",
      "All set to chat!"].map String.toList),
    (String.toList "hello",
     ["Hello!", "Hi there!", "Hey!"].map String.toList),
    (String.toList "thanks",
     ["You\x27re welcome!", "Happy to help!", "Anytime!"].map String.toList),
    (String.toList "help",
     ["I can help with reminders, answer questions, and chat with you!",
      "Just ask me anything!"].map String.toList) ]

/-- `MayAssistant.get_casual_response` (lines 660-676): first table key that
    is a substring of the lowered query yields a random canned reply. -/
def get_casual_response (rng : Nat) (query : Str) : Option Str :=
  let ql := lowerL query
  match casualResponses.find? (fun p => containsSub p.1 ql) with
  | some p => some (pyChoice p.2 rng)
  | none => none

/-- Ordered model identifiers of lines 783-786. -/
def modelsToTry : List Str :=
  ["claude-sonnet-4-5-20250929", "claude-3-5-sonnet-20241022"].map String.toList

/-- Sequential model attempts of lines 788-801: the oracle `svc` gives each
    model's outcome (`none` = the call raised `AnthropicError`); the first
    success is returned and every attempt is traced. -/
def tryModels (svc : Str → Option Str) : List Str → Option Str × List Ev
  | [] => (none, [])
  | m :: ms =>
    match svc m with
    | some r => (some r, [Ev.modelCall m])
    | none =>
      let rest := tryModels svc ms
      (rest.1, Ev.modelCall m :: rest.2)

/-- `MayAssistant.process_with_claude` (lines 735-806): deterministic intents
    first, then the model sequence when a client is configured, with the
    emotion-aware canned fallback when there is no client or every model
    attempt failed. -/
def process_with_claude (cfg : Cfg) (svc : Str → Option Str) (rng : Nat)
    (h mi : Nat) (dateStr : Str) (emotions : Option EmotionResult)
    (query : Str) : Str × List Ev :=
  if timeMatch query then (timeResponse h mi, [])
  else if dateMatch query then (dateResponse dateStr, [])
  else if cfg.anthropicClient = false then (get_emotion_aware_response rng emotions, [])
  else
    let t := tryModels svc modelsToTry
    match t.1 with
    | some r => (r, t.2)
    | none => (get_emotion_aware_response rng emotions, t.2)

/-- Context append of lines 731-733 and 837-839:
    `self.context.append(...)`, then `if len(self.context) > 5: self.context.pop(0)`. -/
def ctxAppend (ctx : List Str) (e : Str) : List Str :=
  let c := ctx ++ [e]
  if 5 < c.length then c.drop 1 else c

/-- Context entry format `f"User: {q} | May: {r}"` (lines 731 and 837). -/
def mkEntry (q r : Str) : Str :=
  String.toList "User: " ++ q ++ String.toList " | May: " ++ r

/-- Result of one passive-loop iteration on a heard utterance. -/
structure StepRes where
  resp : Option Str
  ctx : List Str
  trace : List Ev
  enterConv : Bool
deriving DecidableEq, Repr

/-- Wake handling of one `passive_listening` iteration (lines 820-842):
    wake-word test, inline-query gate `if query and len(query.strip()) > 0`,
    emotion detection followed by the pipeline, context append, and the
    unconditional entry into conversation mode after wake detection. -/
def passive_step (cfg : Cfg) (svc : Str → Option Str) (emoSvc : Option EmotionResult)
    (pol : Str → Option ℚ) (rng h mi : Nat) (dateStr : Str) (ctx : List Str)
    (heard : Option Str) : StepRes :=
  let w := check_wake_word heard
  if w.1 then
    match w.2 with
    | some q =>
      if (stripL q).isEmpty = false then
        let d := detect_emotions_fast cfg emoSvc pol q
        let p := process_with_claude cfg svc rng h mi dateStr (some d.1) q
        ⟨some p.1, ctxAppend ctx (mkEntry q p.1), d.2 ++ p.2, true⟩
      else ⟨none, ctx, [], true⟩
    | none => ⟨none, ctx, [], true⟩
  else ⟨none, ctx, [], false⟩

/-- Outcome of one conversation-mode iteration. -/
inductive ConvOut where
  | timeoutPrompt : ConvOut
  | terminated : ConvOut
  | replied : Str → ConvOut
deriving DecidableEq, Repr

/-- Result of one conversation-mode iteration. -/
structure ConvRes where
  out : ConvOut
  ctx : List Str
  trace : List Ev
deriving DecidableEq, Repr

/-- One iteration of `conversation_mode` (lines 684-733): timeout prompt,
    termination test, emotion detection, casual shortcut, pipeline, context
    append. -/
def conversation_step (cfg : Cfg) (svc : Str → Option Str) (emoSvc : Option EmotionResult)
    (pol : Str → Option ℚ) (rng h mi : Nat) (dateStr : Str) (ctx : List Str)
    (heard : Option Str) : ConvRes :=
  match heard with
  | none => ⟨ConvOut.timeoutPrompt, ctx, []⟩
  | some t =>
    if check_termination (some t) then ⟨ConvOut.terminated, ctx, []⟩
    else
      let d := detect_emotions_fast cfg emoSvc pol t
      match get_casual_response rng t with
      | some c => ⟨ConvOut.replied c, ctxAppend ctx (mkEntry t c), d.2⟩
      | none =>
        let p := process_with_claude cfg svc rng h mi dateStr (some d.1) t
        ⟨ConvOut.replied p.1, ctxAppend ctx (mkEntry t p.1), d.2 ++ p.2⟩

/-- Reminder record `{"text": ..., "time": ...}` with the fire time as a
    timestamp (seconds). -/
structure Reminder where
  text : Str
  fireAt : Int
deriving DecidableEq, Repr

/-- Observable events of one `check_reminders` run. -/
inductive RemEv where
  | save : RemEv
  | announce : Reminder → RemEv
deriving DecidableEq, Repr

/-- `MayAssistant.check_reminders` (lines 480-496): collect due reminders
    while removing them from the active list, persist once if any were due,
    then announce each in order.  Iterating over a snapshot and removing by
    value is equivalent to partitioning the list by due-ness. -/
def check_reminders (now : Int) (rems : List Reminder) : List Reminder × List RemEv :=
  let due := rems.filter (fun r => decide (r.fireAt ≤ now))
  let keep := rems.filter (fun r => !decide (r.fireAt ≤ now))
  (keep, (if due.isEmpty then [] else [RemEv.save]) ++ due.map RemEv.announce)

/-- Battery-alert state: the three "already alerted" flags of
    `self.battery_thresholds = {20: False, 10: False, 5: False}` (line 230)
    plus the throttle timestamp `last_battery_check`. -/
structure BatSt where
  a20 : Bool
  a10 : Bool
  a5 : Bool
  last : Int
deriving DecidableEq, Repr

/-- Flag accessor by threshold value (any value other than 20 or 10 reads
    the 5-percent flag; only 20, 10, 5 are ever used). -/
def getFlag (t : Nat) (st : BatSt) : Bool :=
  if t = 20 then st.a20 else if t = 10 then st.a10 else st.a5

/-- `MayAssistant.check_battery` (lines 498-517): 300-second wall-clock
    throttle, then the thresholds are scanned in dict insertion order
    (20, 10, 5); the first newly crossed one fires and returns; otherwise
    a charge strictly above 20 resets all flags.  `bat` is the reading of
    `psutil.sensors_battery()` (`none` when no battery is reported).  The
    fired threshold stands for the returned warning string
    `f"Battery at {percent}%. Please charge soon."`. -/
def check_battery (st : BatSt) (now : Int) (bat : Option ℚ) : Option Nat × BatSt :=
  if now - st.last < 300 then (none, st)
  else
    match bat with
    | none => (none, { st with last := now })
    | some p =>
      if p ≤ 20 ∧ st.a20 = false then (some 20, { st with last := now, a20 := true })
      else if p ≤ 10 ∧ st.a10 = false then (some 10, { st with last := now, a10 := true })
      else if p ≤ 5 ∧ st.a5 = false then (some 5, { st with last := now, a5 := true })
      else if 20 < p then
        (none, { a20 := false, a10 := false, a5 := false, last := now })
      else (none, { st with last := now })

/-- Fold of `check_battery` over a sequence of checks, collecting the fired
    thresholds. -/
def run_battery (st : BatSt) : List (Int × Option ℚ) → List Nat × BatSt
  | [] => ([], st)
  | c :: cs =>
    let step := check_battery st c.1 c.2
    let rest := run_battery step.2 cs
    (step.1.toList ++ rest.1, rest.2)

/-- Low-period hypothesis: every battery reading the sequence offers is at
    most 20 percent. -/
def lowPeriod (cs : List (Int × Option ℚ)) : Prop :=
  ∀ c ∈ cs, ∀ p : ℚ, c.2 = some p → p ≤ 20

instance (cs : List (Int × Option ℚ)) : Decidable (lowPeriod cs) := by
  unfold lowPeriod; infer_instance

/-- ESP32 connection state (`self.connected`). -/
structure EspSt where
  connected : Bool
deriving DecidableEq, Repr

/-- Observable events of the ESP32 link: a successfully transmitted line, or
    a connection attempt. -/
inductive EspEv where
  | sent : Str → EspEv
  | connTry : EspEv
deriving DecidableEq, Repr

/-- `ESP32Comm.connect` (lines 96-108): one connection attempt whose success
    is decided by the oracle `ok`; the connected flag records the outcome. -/
def espConnect (ok : Bool) : EspSt × List EspEv := (⟨ok⟩, [EspEv.connTry])

/-- `ESP32Comm.send` (lines 110-122): silent no-op when disconnected;
    otherwise transmit `f"{message_type}|{text}\n"`; on a transmission
    failure (`sendOk = false`) mark disconnected and immediately call
    `connect()`, whose outcome is `connOk`. -/
def espSend (st : EspSt) (sendOk connOk : Bool) (mtype text : Str) :
    EspSt × List EspEv :=
  if st.connected = false then (st, [])
  else if sendOk then (st, [EspEv.sent (mtype ++ '|' :: text ++ ['\n'])])
  else espConnect connOk

/-! Helper lemmas shared by several claim theorems. -/

/-- Wake-word parse of the scenario utterance. -/
theorem wake_parse_time :
    check_wake_word (some (String.toList "may what time is it")) =
      (true, some (String.toList "what time is it")) := by decide

/-- Trace shape of `detect_emotions_fast`: the emotion service is contacted
    exactly when a usable Hume key is configured. -/
theorem detect_trace (cfg : Cfg) (emoSvc : Option EmotionResult)
    (pol : Str → Option ℚ) (text : Str) :
    (detect_emotions_fast cfg emoSvc pol text).2 =
      if humeAvailable cfg then [Ev.emotionCall] else [] := by
  unfold detect_emotions_fast
  cases h : humeAvailable cfg
  · simp [h]
  · cases emoSvc <;> simp [h]

/-- A `pyChoice` draw from a non-empty list is a member of the list. -/
theorem pyChoice_mem (l : List Str) (rng : Nat) (hl : l ≠ []) :
    pyChoice l rng ∈ l := by
  unfold pyChoice
  have hlen : 0 < l.length := List.length_pos.mpr hl
  have hmod : rng % l.length < l.length := Nat.mod_lt _ hlen
  rw [List.getD_eq_getElem l [] hmod]
  exact List.getElem_mem hmod

/-- Every bucket of the per-emotion reply table has exactly 3 replies, also
    through the default lookup. -/
theorem emotionLookup_length (e : Str) : (emotionLookup e).length = 3 := by
  unfold emotionLookup
  cases hf : emotionResponses.find? (fun p => p.1 == e) with
  | none => decide
  | some p =>
    have hmem := List.mem_of_find?_eq_some hf
    have hall : ∀ pr ∈ emotionResponses, pr.2.length = 3 := by decide
    exact hall p hmem

/-! Claim theorems. -/

/-- C1 counterexample: for the utterance "Hello May" the code returns the
    query "hello" — the lowercased utterance with every wake-word occurrence
    removed — while the claim demands "Hello", the original utterance with
    the first wake-word occurrence removed and trimmed. -/
theorem c1_counterexample :
    check_wake_word (some (String.toList "Hello May")) =
      (true, some (String.toList "hello")) ∧
    specWakeQuery (String.toList "Hello May") = String.toList "Hello" ∧
    (check_wake_word (some (String.toList "Hello May"))).2 ≠
      some (specWakeQuery (String.toList "Hello May")) := by
  exact ⟨by decide, by decide, by decide⟩

/-- C1 amended: for every non-empty utterance containing the wake word "may"
    case-insensitively, `check_wake_word` returns detected=true together
    with a query equal to the LOWERCASED utterance with ALL wake-word
    occurrences removed and trimmed, or no query when that removal leaves
    only whitespace. -/
theorem c1_amended (t : Str) (ht : t ≠ [])
    (hw : containsSub (String.toList "may") (lowerL t) = true) :
    check_wake_word (some t) =
      (true,
        if (stripL (removeAll (String.toList "may") (lowerL t))).isEmpty then none
        else some (stripL (removeAll (String.toList "may") (lowerL t)))) := by
  have h0 : t.isEmpty = false := List.isEmpty_eq_false.mpr ht
  simp only [check_wake_word, h0, Bool.false_eq_true, if_false, WAKE_WORDS,
    wake_scan, hw, if_true]

/-- Witness for `c1_amended` at the utterance "Okay May". -/
theorem c1_witness :
    (String.toList "Okay May" ≠ [] ∧
      containsSub (String.toList "may") (lowerL (String.toList "Okay May")) = true) ∧
    check_wake_word (some (String.toList "Okay May")) =
      (true, some (String.toList "okay")) := by
  refine ⟨⟨by decide, by decide⟩, ?_⟩
  rw [c1_amended (String.toList "Okay May") (by decide) (by decide)]
  decide

/-- C10: empty or missing input is rejected by both predicates; a bare
    wake-word utterance yields detected=true with no query; and in the
    passive loop a wake detection without query performs no inline
    processing (no reply, no context change, no service call) and still
    enters conversation mode. -/
theorem c10_empty_and_bare_wake :
    check_wake_word none = (false, none) ∧
    check_wake_word (some []) = (false, none) ∧
    check_termination none = false ∧
    check_termination (some []) = false ∧
    check_wake_word (some (String.toList "may")) = (true, none) ∧
    (∀ (cfg : Cfg) (svc : Str → Option Str) (emoSvc : Option EmotionResult)
       (pol : Str → Option ℚ) (rng h mi : Nat) (dateStr : Str)
       (ctx : List Str) (t : Str),
      check_wake_word (some t) = (true, none) →
      passive_step cfg svc emoSvc pol rng h mi dateStr ctx (some t) =
        ⟨none, ctx, [], true⟩) := by
  refine ⟨by decide, by decide, by decide, by decide, by decide, ?_⟩
  intro cfg svc emoSvc pol rng h mi dateStr ctx t hw
  unfold passive_step
  rw [hw]
  simp

/-- Witness for `c10_empty_and_bare_wake` at the utterance "may". -/
theorem c10_witness :
    check_wake_word (some (String.toList "may")) = (true, none) ∧
    passive_step ⟨none, false⟩ (fun _ => none) none (fun _ => none) 0 0 0 [] []
      (some (String.toList "may")) = ⟨none, [], [], true⟩ := by
  refine ⟨by decide, ?_⟩
  exact c10_empty_and_bare_wake.2.2.2.2.2 ⟨none, false⟩ (fun _ => none) none
    (fun _ => none) 0 0 0 [] [] (String.toList "may") (by decide)

/-- C9 counterexample: after a send failure (with the immediate in-handler
    reconnect also failing), the NEXT send is a silent no-op that attempts
    no reconnect at all — the reconnect had already been attempted inside
    the failing send, contrary to the claim. -/
theorem c9_counterexample :
    espSend ⟨true⟩ false false (String.toList "RESPONSE") (String.toList "hi") =
      (⟨false⟩, [EspEv.connTry]) ∧
    espSend (espSend ⟨true⟩ false false (String.toList "RESPONSE")
        (String.toList "hi")).1 true true (String.toList "RESPONSE")
        (String.toList "hi") = (⟨false⟩, []) ∧
    EspEv.connTry ∉
      (espSend (espSend ⟨true⟩ false false (String.toList "RESPONSE")
        (String.toList "hi")).1 true true (String.toList "RESPONSE")
        (String.toList "hi")).2 := by
  exact ⟨by decide, by decide, by decide⟩

/-- C9 amended: a send while disconnected is a silent no-op (no event, no
    error); a successful send transmits the line protocol message and keeps
    the connection; a failing send marks the connection down and attempts
    one reconnect IMMEDIATELY (inside the failing send), after which the
    connected flag records that reconnect's outcome. -/
theorem c9_amended (st : EspSt) (sendOk connOk : Bool) (mtype text : Str) :
    (st.connected = false → espSend st sendOk connOk mtype text = (st, [])) ∧
    (st.connected = true → sendOk = true →
      espSend st sendOk connOk mtype text =
        (st, [EspEv.sent (mtype ++ '|' :: text ++ ['\n'])])) ∧
    (st.connected = true → sendOk = false →
      espSend st sendOk connOk mtype text = (⟨connOk⟩, [EspEv.connTry])) := by
  unfold espSend espConnect
  refine ⟨fun h1 => by simp [h1], fun h1 h2 => by simp [h1, h2],
    fun h1 h2 => by simp [h1, h2]⟩

/-- Witness for `c9_amended`: a disconnected send is a no-op. -/
theorem c9_witness :
    espSend ⟨false⟩ true true (String.toList "READY") [] = (⟨false⟩, []) := by
  exact (c9_amended ⟨false⟩ true true (String.toList "READY") []).1 rfl

/-- Shape of the passive-loop iteration on the scenario utterance
    "may what time is it": emotion detection runs first, then the pipeline
    answers from the time intent without touching the model list. -/
theorem passive_time_eq (cfg : Cfg) (svc : Str → Option Str)
    (emoSvc : Option EmotionResult) (pol : Str → Option ℚ)
    (rng h mi : Nat) (dateStr : Str) (ctx : List Str) :
    passive_step cfg svc emoSvc pol rng h mi dateStr ctx
      (some (String.toList "may what time is it")) =
      ⟨some (timeResponse h mi),
       ctxAppend ctx (mkEntry (String.toList "what time is it") (timeResponse h mi)),
       (detect_emotions_fast cfg emoSvc pol (String.toList "what time is it")).2,
       true⟩ := by
  have hgate : (stripL (String.toList "what time is it")).isEmpty = false := by decide
  have htm : timeMatch (String.toList "what time is it") = true := by decide
  unfold passive_step
  rw [wake_parse_time]
  simp only [process_with_claude, htm, if_true, hgate]
  simp

/-- C2 counterexample: with a Hume credential configured, the passive inline
    path calls the emotion service for the query "what time is it" (line 832
    runs `detect_emotions_fast` before `process_with_claude`), so the time
    reply is not produced "without the emotion service ever being called". -/
theorem c2_counterexample :
    Ev.emotionCall ∈
      (passive_step ⟨some (String.toList "k"), true⟩ (fun _ => none)
        (some ⟨String.toList "Joy", 9/10, []⟩) (fun _ => none) 0 15 4 [] []
        (some (String.toList "may what time is it"))).trace := by decide

/-- C2 amended: for the utterance "may what time is it" the wake word is
    detected with inline query "what time is it"; the pipeline's
    deterministic intent stage answers with a string of the form
    "It's HH:MM AM/PM." and the language-model service is never called; the
    emotion service, however, is called for that query exactly when a usable
    Hume credential is configured, before the intent stage runs (its result
    does not affect the time reply). -/
theorem c2_amended (cfg : Cfg) (svc : Str → Option Str)
    (emoSvc : Option EmotionResult) (pol : Str → Option ℚ)
    (rng h mi : Nat) (dateStr : Str) (ctx : List Str) :
    check_wake_word (some (String.toList "may what time is it")) =
      (true, some (String.toList "what time is it")) ∧
    (passive_step cfg svc emoSvc pol rng h mi dateStr ctx
      (some (String.toList "may what time is it"))).resp =
      some (timeResponse h mi) ∧
    timeResponse h mi =
      String.toList "It\x27s " ++ pad2 (hour12 h) ++ ':' :: pad2 mi ++
        ' ' :: meridiem h ++ ['.'] ∧
    (∀ mname, Ev.modelCall mname ∉
      (passive_step cfg svc emoSvc pol rng h mi dateStr ctx
        (some (String.toList "may what time is it"))).trace) ∧
    (Ev.emotionCall ∈
      (passive_step cfg svc emoSvc pol rng h mi dateStr ctx
        (some (String.toList "may what time is it"))).trace ↔
      humeAvailable cfg = true) := by
  refine ⟨wake_parse_time, ?_, rfl, ?_, ?_⟩
  · rw [passive_time_eq]
  · intro mname
    rw [passive_time_eq]
    show Ev.modelCall mname ∉
      (detect_emotions_fast cfg emoSvc pol (String.toList "what time is it")).2
    rw [detect_trace]
    cases humeAvailable cfg <;> simp
  · rw [passive_time_eq]
    show Ev.emotionCall ∈
      (detect_emotions_fast cfg emoSvc pol (String.toList "what time is it")).2 ↔ _
    rw [detect_trace]
    cases h : humeAvailable cfg <;> simp

/-- C3 counterexample: the inline query "hello" matches the casual table,
    yet the passive inline path (lines 831-839) never consults it — with a
    model client configured the language model IS called and its output is
    spoken, refuting "the casual-phrase shortcut stage ... returns a canned
    reply and bypasses the language model". -/
theorem c3_counterexample :
    (get_casual_response 0 (String.toList "hello")).isSome = true ∧
    (passive_step ⟨none, true⟩ (fun _ => some (String.toList "From the model"))
      none (fun _ => none) 0 9 0 [] [] (some (String.toList "may hello"))).resp =
      some (String.toList "From the model") ∧
    Ev.modelCall (String.toList "claude-sonnet-4-5-20250929") ∈
      (passive_step ⟨none, true⟩ (fun _ => some (String.toList "From the model"))
        none (fun _ => none) 0 9 0 [] [] (some (String.toList "may hello"))).trace := by
  exact ⟨by decide, by decide, by decide⟩

/-- C3 amended: for every non-empty inline query following the wake word,
    the passive loop runs emotion detection and then `process_with_claude`
    (intent, model attempts, emotion-aware fallback) — NOT the casual-phrase
    shortcut, which is consulted only inside conversation mode — then speaks
    the result and appends the exchange to the context. -/
theorem c3_amended (cfg : Cfg) (svc : Str → Option Str)
    (emoSvc : Option EmotionResult) (pol : Str → Option ℚ)
    (rng h mi : Nat) (dateStr : Str) (ctx : List Str) (t q : Str)
    (hw : check_wake_word (some t) = (true, some q))
    (hq : (stripL q).isEmpty = false) :
    (passive_step cfg svc emoSvc pol rng h mi dateStr ctx (some t) =
      ⟨some (process_with_claude cfg svc rng h mi dateStr
          (some (detect_emotions_fast cfg emoSvc pol q).1) q).1,
        ctxAppend ctx (mkEntry q
          (process_with_claude cfg svc rng h mi dateStr
            (some (detect_emotions_fast cfg emoSvc pol q).1) q).1),
        (detect_emotions_fast cfg emoSvc pol q).2 ++
          (process_with_claude cfg svc rng h mi dateStr
            (some (detect_emotions_fast cfg emoSvc pol q).1) q).2,
        true⟩) ∧
    (∀ c, get_casual_response rng q = some c →
      check_termination (some q) = false →
      (conversation_step cfg svc emoSvc pol rng h mi dateStr ctx (some q)).out =
        ConvOut.replied c) := by
  constructor
  · unfold passive_step
    rw [hw]
    simp [hq]
  · intro c hc hterm
    unfold conversation_step
    simp [hterm, hc]

/-- Witness for `c3_amended` at the utterance "may hello": in conversation
    mode the same query "hello" IS answered from the casual table. -/
theorem c3_witness :
    check_wake_word (some (String.toList "may hello")) =
      (true, some (String.toList "hello")) ∧
    get_casual_response 0 (String.toList "hello") =
      some (String.toList "Hello!") ∧
    (conversation_step ⟨none, true⟩ (fun _ => none) none (fun _ => none) 0 9 0 [] []
      (some (String.toList "hello"))).out = ConvOut.replied (String.toList "Hello!") := by
  refine ⟨by decide, by decide, ?_⟩
  exact (c3_amended ⟨none, true⟩ (fun _ => none) none (fun _ => none) 0 9 0 [] []
    (String.toList "may hello") (String.toList "hello") (by decide) (by decide)).2
    (String.toList "Hello!") (by decide) (by decide)

/-- Appending to a full five-entry window drops exactly the head (the
    oldest entry). -/
theorem ctxAppend_full (ctx : List Str) (e : Str) (h5 : ctx.length = 5) :
    ctxAppend ctx e = ctx.tail ++ [e] := by
  unfold ctxAppend
  have hc : 5 < (ctx ++ [e]).length := by
    rw [List.length_append, h5]; simp
  rw [if_pos hc]
  cases ctx with
  | nil => simp at h5
  | cons a l => simp

/-- Appending below capacity keeps every entry. -/
theorem ctxAppend_small (ctx : List Str) (e : Str) (h5 : ctx.length < 5) :
    ctxAppend ctx e = ctx ++ [e] := by
  unfold ctxAppend
  rw [if_neg]
  rw [List.length_append]
  simp
  omega

/-- The context window built by folding appends from the empty context is
    exactly the suffix of the last (at most) five appended entries. -/
theorem ctx_fold (es : List Str) :
    List.foldl ctxAppend [] es = es.drop (es.length - 5) := by
  induction es using List.reverseRecOn with
  | nil => rfl
  | append_singleton es e ih =>
    rw [List.foldl_append, ih]
    simp only [List.foldl_cons, List.foldl_nil]
    by_cases h5 : es.length < 5
    · have h1 : es.length - 5 = 0 := by omega
      have h2 : (es ++ [e]).length - 5 = 0 := by
        rw [List.length_append, List.length_singleton]; omega
      rw [h1, h2, List.drop_zero, List.drop_zero]
      exact ctxAppend_small es e h5
    · push_neg at h5
      have hlen : (es.drop (es.length - 5)).length = 5 := by
        rw [List.length_drop]; omega
      rw [ctxAppend_full _ _ hlen]
      have htail : (es.drop (es.length - 5)).tail = es.drop (es.length - 4) := by
        rw [← List.drop_one, List.drop_drop]
        congr 1
        omega
      rw [htail]
      have h2 : (es ++ [e]).length - 5 = es.length - 4 := by
        rw [List.length_append, List.length_singleton]; omega
      rw [h2, List.drop_append_of_le_length (by omega)]

/-- C4: after any number of appends (from either loop) the context window
    holds at most 5 entries, it is exactly the FIFO suffix of the appended
    entries, and each eviction removes strictly the oldest entry. -/
theorem c4_context_fifo :
    (∀ es : List Str, List.foldl ctxAppend [] es = es.drop (es.length - 5)) ∧
    (∀ es : List Str, (List.foldl ctxAppend [] es).length ≤ 5) ∧
    (∀ (ctx : List Str) (e : Str), ctx.length = 5 → ctxAppend ctx e = ctx.tail ++ [e]) ∧
    (∀ (ctx : List Str) (e : Str), ctx.length < 5 → ctxAppend ctx e = ctx ++ [e]) := by
  refine ⟨ctx_fold, ?_, ctxAppend_full, ctxAppend_small⟩
  intro es
  rw [ctx_fold, List.length_drop]
  omega

/-- Witness for `c4_context_fifo`: a sixth append evicts exactly the first
    entry. -/
theorem c4_witness :
    ((["a", "b", "c", "d", "e"].map String.toList).length = 5) ∧
    ctxAppend (["a", "b", "c", "d", "e"].map String.toList) (String.toList "f") =
      ["b", "c", "d", "e", "f"].map String.toList := by
  refine ⟨by decide, ?_⟩
  rw [c4_context_fifo.2.2.1 _ _ (by decide)]
  decide

/-- Constructor injectivity for announcement events. -/
theorem announce_injective : Function.Injective RemEv.announce := by
  intro a b hab
  injection hab

/-- Unfolded shape of `check_reminders`. -/
theorem check_reminders_eq (now : Int) (rems : List Reminder) :
    check_reminders now rems =
      (rems.filter (fun x => !decide (x.fireAt ≤ now)),
       (if (rems.filter (fun x => decide (x.fireAt ≤ now))).isEmpty then []
        else [RemEv.save]) ++
         (rems.filter (fun x => decide (x.fireAt ≤ now))).map RemEv.announce) := rfl

/-- Filtering by a predicate the element satisfies preserves its count. -/
theorem count_filter_pos {α : Type} [DecidableEq α] (p : α → Bool) (a : α)
    (l : List α) (hpa : p a = true) : (l.filter p).count a = l.count a := by
  induction l with
  | nil => rfl
  | cons b l ih =>
    by_cases hb : p b = true
    · rw [List.filter_cons_of_pos hb, List.count_cons, List.count_cons, ih]
    · rw [List.filter_cons_of_neg (by simp [hb]), ih, List.count_cons]
      have hba : (b == a) = false := by
        apply beq_false_of_ne
        intro he
        rw [he] at hb
        exact hb hpa
      rw [hba]
      simp

/-- C5: a reminder that is due at check time is announced exactly once by
    that check, is removed from the active set, the removal is persisted
    before any announcement (the save event heads the event list), and no
    later check announces it again. -/
theorem c5_reminder_once (now : Int) (rems : List Reminder) (r : Reminder)
    (huniq : rems.count r = 1) (hdue : r.fireAt ≤ now) :
    ((check_reminders now rems).2).count (RemEv.announce r) = 1 ∧
    r ∉ (check_reminders now rems).1 ∧
    ((check_reminders now rems).2).head? = some RemEv.save ∧
    (∀ now2 : Int,
      ((check_reminders now2 (check_reminders now rems).1).2).count
        (RemEv.announce r) = 0) := by
  have hpr : (fun x : Reminder => decide (x.fireAt ≤ now)) r = true := by
    simp [hdue]
  have hdcount : (rems.filter (fun x => decide (x.fireAt ≤ now))).count r = 1 := by
    rw [count_filter_pos (fun x : Reminder => decide (x.fireAt ≤ now)) r rems hpr,
      huniq]
  have hdmem : r ∈ rems.filter (fun x => decide (x.fireAt ≤ now)) :=
    List.count_pos_iff.mp (by omega)
  have hdne : (rems.filter (fun x => decide (x.fireAt ≤ now))).isEmpty = false := by
    rw [List.isEmpty_eq_false]
    intro hnil
    rw [hnil] at hdmem
    exact List.not_mem_nil r hdmem
  have hkeep : r ∉ (check_reminders now rems).1 := by
    rw [check_reminders_eq]
    intro hr
    have h2 := (List.mem_filter.mp hr).2
    simp [hdue] at h2
  refine ⟨?_, hkeep, ?_, ?_⟩
  · rw [check_reminders_eq]
    simp only [List.count_append]
    rw [if_neg (by rw [hdne]; simp)]
    rw [List.count_map_of_injective _ _ announce_injective, hdcount]
    rfl
  · rw [check_reminders_eq]
    simp only []
    rw [if_neg (by rw [hdne]; simp)]
    simp
  · intro now2
    have hnotin :
        r ∉ (rems.filter (fun x => !decide (x.fireAt ≤ now))).filter
          (fun x => decide (x.fireAt ≤ now2)) := by
      intro hr
      apply hkeep
      rw [check_reminders_eq]
      exact (List.mem_filter.mp hr).1
    rw [check_reminders_eq, check_reminders_eq]
    simp only [List.count_append]
    rw [List.count_map_of_injective _ _ announce_injective]
    rw [List.count_eq_zero.mpr hnotin]
    split
    · rfl
    · rw [List.count_eq_zero.mpr (by simp : RemEv.announce r ∉ [RemEv.save])]

/-- Witness for `c5_reminder_once` at a single due reminder. -/
theorem c5_witness :
    ((check_reminders 150 [⟨String.toList "pay rent", 100⟩]).2).count
      (RemEv.announce ⟨String.toList "pay rent", 100⟩) = 1 ∧
    (⟨String.toList "pay rent", 100⟩ : Reminder) ∉
      (check_reminders 150 [⟨String.toList "pay rent", 100⟩]).1 ∧
    ((check_reminders 150 [⟨String.toList "pay rent", 100⟩]).2).head? =
      some RemEv.save := by
  have h := c5_reminder_once 150 [⟨String.toList "pay rent", 100⟩]
    ⟨String.toList "pay rent", 100⟩ (by decide) (by decide)
  exact ⟨h.1, h.2.1, h.2.2.1⟩

/-- Throttled check: no warning, state untouched. -/
theorem check_battery_throttle (st : BatSt) (now : Int) (bat : Option ℚ)
    (h : now - st.last < 300) : check_battery st now bat = (none, st) := by
  unfold check_battery
  rw [if_pos h]

/-- Non-throttled check without a battery reading: only the throttle
    timestamp advances. -/
theorem check_battery_none (st : BatSt) (now : Int)
    (h : ¬(now - st.last < 300)) :
    check_battery st now none = (none, { st with last := now }) := by
  unfold check_battery
  rw [if_neg h]

/-- Non-throttled check with a reading: the threshold scan, unfolded. -/
theorem check_battery_some_eq (st : BatSt) (now : Int) (p : ℚ)
    (h : ¬(now - st.last < 300)) :
    check_battery st now (some p) =
      (if p ≤ 20 ∧ st.a20 = false then
        (some 20, { st with last := now, a20 := true })
       else if p ≤ 10 ∧ st.a10 = false then
        (some 10, { st with last := now, a10 := true })
       else if p ≤ 5 ∧ st.a5 = false then
        (some 5, { st with last := now, a5 := true })
       else if 20 < p then
        (none, { a20 := false, a10 := false, a5 := false, last := now })
       else (none, { st with last := now })) := by
  unfold check_battery
  rw [if_neg h]

/-- A fired battery warning names one of the three thresholds, whose flag
    goes from unalerted to alerted in that check. -/
theorem check_battery_fired (st : BatSt) (now : Int) (bat : Option ℚ) (t : Nat)
    (hf : (check_battery st now bat).1 = some t) :
    (t = 20 ∨ t = 10 ∨ t = 5) ∧ getFlag t st = false ∧
      getFlag t (check_battery st now bat).2 = true := by
  by_cases h1 : now - st.last < 300
  · rw [check_battery_throttle st now bat h1] at hf
    simp at hf
  · cases bat with
    | none =>
      rw [check_battery_none st now h1] at hf
      simp at hf
    | some p =>
      rw [check_battery_some_eq st now p h1] at hf ⊢
      by_cases h20 : p ≤ 20 ∧ st.a20 = false
      · rw [if_pos h20] at hf ⊢
        have ht : (20 : Nat) = t := by simpa using hf
        subst ht
        exact ⟨Or.inl rfl, h20.2, by simp [getFlag]⟩
      · rw [if_neg h20] at hf ⊢
        by_cases h10 : p ≤ 10 ∧ st.a10 = false
        · rw [if_pos h10] at hf ⊢
          have ht : (10 : Nat) = t := by simpa using hf
          subst ht
          exact ⟨Or.inr (Or.inl rfl), h10.2, by simp [getFlag]⟩
        · rw [if_neg h10] at hf ⊢
          by_cases h5 : p ≤ 5 ∧ st.a5 = false
          · rw [if_pos h5] at hf ⊢
            have ht : (5 : Nat) = t := by simpa using hf
            subst ht
            exact ⟨Or.inr (Or.inr rfl), h5.2, by simp [getFlag]⟩
          · rw [if_neg h5] at hf ⊢
            by_cases hr : 20 < p
            · rw [if_pos hr] at hf; simp at hf
            · rw [if_neg hr] at hf; simp at hf

/-- In a low reading (at most 20 percent, or no reading) a check that does
    not fire threshold `t` leaves the flag of `t` unchanged: no reset can
    occur below the 20-percent recovery bound. -/
theorem check_battery_unchanged (st : BatSt) (now : Int) (bat : Option ℚ) (t : Nat)
    (ht : t = 20 ∨ t = 10 ∨ t = 5)
    (hlow : ∀ p : ℚ, bat = some p → p ≤ 20)
    (hne : (check_battery st now bat).1 ≠ some t) :
    getFlag t (check_battery st now bat).2 = getFlag t st := by
  by_cases h1 : now - st.last < 300
  · rw [check_battery_throttle st now bat h1]
  · cases bat with
    | none =>
      rw [check_battery_none st now h1]
      rcases ht with rfl | rfl | rfl <;> simp [getFlag]
    | some p =>
      have hp : p ≤ 20 := hlow p rfl
      rw [check_battery_some_eq st now p h1] at hne ⊢
      by_cases h20 : p ≤ 20 ∧ st.a20 = false
      · rw [if_pos h20] at hne ⊢
        have ht20 : t ≠ 20 := fun he => hne (by rw [he])
        rcases ht with rfl | rfl | rfl
        · exact absurd rfl ht20
        · simp [getFlag]
        · simp [getFlag]
      · rw [if_neg h20] at hne ⊢
        by_cases h10 : p ≤ 10 ∧ st.a10 = false
        · rw [if_pos h10] at hne ⊢
          have ht10 : t ≠ 10 := fun he => hne (by rw [he])
          rcases ht with rfl | rfl | rfl
          · simp [getFlag]
          · exact absurd rfl ht10
          · simp [getFlag]
        · rw [if_neg h10] at hne ⊢
          by_cases h5 : p ≤ 5 ∧ st.a5 = false
          · rw [if_pos h5] at hne ⊢
            have ht5 : t ≠ 5 := fun he => hne (by rw [he])
            rcases ht with rfl | rfl | rfl
            · simp [getFlag]
            · simp [getFlag]
            · exact absurd rfl ht5
          · rw [if_neg h5] at hne ⊢
            rw [if_neg (by intro hgt; linarith)] at hne ⊢
            rcases ht with rfl | rfl | rfl <;> simp [getFlag]

/-- Every fired threshold over a run is one of 20, 10 and 5. -/
theorem run_battery_mem (cs : List (Int × Option ℚ)) :
    ∀ (st : BatSt) (x : Nat), x ∈ (run_battery st cs).1 →
      x = 20 ∨ x = 10 ∨ x = 5 := by
  induction cs with
  | nil => intro st x hx; simp [run_battery] at hx
  | cons c cs ih =>
    intro st x hx
    simp only [run_battery] at hx
    rw [List.mem_append] at hx
    rcases hx with hx | hx
    · cases hf : (check_battery st c.1 c.2).1 with
      | none => rw [hf] at hx; simp at hx
      | some u =>
        rw [hf] at hx
        simp at hx
        subst hx
        exact (check_battery_fired st c.1 c.2 x hf).1
    · exact ih _ x hx

/-- Over a low period a threshold fires at most once, and not at all if its
    flag is already set when the period starts. -/
theorem run_battery_count_low (t : Nat) (ht : t = 20 ∨ t = 10 ∨ t = 5) :
    ∀ (cs : List (Int × Option ℚ)) (st : BatSt), lowPeriod cs →
      (run_battery st cs).1.count t ≤ (if getFlag t st then 0 else 1) := by
  intro cs
  induction cs with
  | nil =>
    intro st _
    simp only [run_battery, List.count_nil]
    split <;> omega
  | cons c cs ih =>
    intro st hlow
    have hlow_head : ∀ p : ℚ, c.2 = some p → p ≤ 20 :=
      fun p hp => hlow c (List.mem_cons_self c cs) p hp
    have hlow_tail : lowPeriod cs :=
      fun d hd p hp => hlow d (List.mem_cons_of_mem c hd) p hp
    simp only [run_battery, List.count_append]
    by_cases hf : (check_battery st c.1 c.2).1 = some t
    · have h1 := check_battery_fired st c.1 c.2 t hf
      rw [hf]
      have hone : (some t).toList.count t = 1 := by simp
      rw [hone]
      have hrest := ih (check_battery st c.1 c.2).2 hlow_tail
      rw [h1.2.2] at hrest
      simp only [if_true] at hrest
      rw [h1.2.1]
      simp only [Bool.false_eq_true, if_false]
      omega
    · have h2 := check_battery_unchanged st c.1 c.2 t ht hlow_head hf
      have hzero : (check_battery st c.1 c.2).1.toList.count t = 0 := by
        cases hc : (check_battery st c.1 c.2).1 with
        | none => simp
        | some u =>
          rw [hc] at hf
          have hut : u ≠ t := fun he => hf (by rw [he])
          rw [List.count_eq_zero.mpr]
          simp
          intro he
          exact hut he.symm
      rw [hzero]
      have hrest := ih (check_battery st c.1 c.2).2 hlow_tail
      rw [h2] at hrest
      omega

/-- C6: across any sequence of checks whose readings stay at or below 20
    percent, each threshold fires at most once; a non-throttled check that
    observes charge strictly above 20 percent fires nothing and resets all
    three flags; and a fired warning always corresponds to one threshold
    whose flag flips from unalerted to alerted. -/
theorem c6_battery_thresholds :
    (∀ (st : BatSt) (cs : List (Int × Option ℚ)) (t : Nat),
      lowPeriod cs → (run_battery st cs).1.count t ≤ 1) ∧
    (∀ (st : BatSt) (now : Int) (p : ℚ),
      300 ≤ now - st.last → 20 < p →
      check_battery st now (some p) = (none, ⟨false, false, false, now⟩)) ∧
    (∀ (st : BatSt) (now : Int) (bat : Option ℚ) (t : Nat),
      (check_battery st now bat).1 = some t →
      (t = 20 ∨ t = 10 ∨ t = 5) ∧ getFlag t st = false ∧
        getFlag t (check_battery st now bat).2 = true) := by
  refine ⟨?_, ?_, check_battery_fired⟩
  · intro st cs t hlow
    by_cases ht : t = 20 ∨ t = 10 ∨ t = 5
    · have h := run_battery_count_low t ht cs st hlow
      split at h <;> omega
    · rw [List.count_eq_zero.mpr]
      · omega
      · intro hmem
        exact ht (run_battery_mem cs st t hmem)
  · intro st now p hth hgt
    rw [check_battery_some_eq st now p (by omega)]
    rw [if_neg (by rintro ⟨hp, _⟩; linarith)]
    rw [if_neg (by rintro ⟨hp, _⟩; linarith)]
    rw [if_neg (by rintro ⟨hp, _⟩; linarith)]
    rw [if_pos hgt]

/-- Witness for `c6_battery_thresholds`: a low period with two checks fires
    the 20-percent threshold once, and a later recovery check resets all
    flags. -/
theorem c6_witness :
    lowPeriod [(300, some 15), (700, some 15)] ∧
    (run_battery ⟨false, false, false, 0⟩
      [(300, some 15), (700, some 15)]).1.count 20 ≤ 1 ∧
    check_battery ⟨true, true, true, 0⟩ 300 (some 50) =
      (none, ⟨false, false, false, 300⟩) := by
  refine ⟨by decide, ?_, ?_⟩
  · exact c6_battery_thresholds.1 ⟨false, false, false, 0⟩
      [(300, some 15), (700, some 15)] 20 (by decide)
  · exact c6_battery_thresholds.2.1 ⟨true, true, true, 0⟩ 300 50 (by decide)
      (by decide)

/-- With an unusable key or a failing service the detection result is the
    local fallback, a pure function of the text and the lexical polarity. -/
theorem detect_fallback_eq (cfg : Cfg) (emoSvc : Option EmotionResult)
    (pol : Str → Option ℚ) (text : Str)
    (hfail : humeAvailable cfg = false ∨ emoSvc = none) :
    (detect_emotions_fast cfg emoSvc pol text).1 = fallbackEmotion pol text := by
  unfold detect_emotions_fast
  rcases hfail with hf | hf
  · rw [if_pos hf]
  · subst hf
    by_cases hA : humeAvailable cfg = false
    · rw [if_pos hA]
    · rw [if_neg hA]

/-- Sentiment bucket when the polarity analysis returns a value. -/
theorem fallback_sentiment_some (pol : Str → Option ℚ) (text : Str) (p : ℚ)
    (hp : pol text = some p) :
    fallback_sentiment pol text =
      (if (3 : ℚ)/10 < p then String.toList "positive"
       else if p < -((3 : ℚ)/10) then String.toList "negative"
       else String.toList "neutral") := by
  unfold fallback_sentiment
  rw [hp]

/-- Sentiment bucket when the polarity analysis raises. -/
theorem fallback_sentiment_none (pol : Str → Option ℚ) (text : Str)
    (hp : pol text = none) :
    fallback_sentiment pol text = String.toList "neutral" := by
  unfold fallback_sentiment
  rw [hp]

/-- C7: whenever the emotion service is unavailable (missing, empty or
    placeholder credential, or any service failure), emotion detection is
    the deterministic local fallback: the result depends only on the text's
    lexical polarity, with polarity above 0.3 giving Joy, below -0.3 giving
    Sadness, anything else (including an analysis failure) giving Calm, and
    the score is always 0.5. -/
theorem c7_fallback_deterministic (cfg : Cfg) (emoSvc : Option EmotionResult)
    (pol : Str → Option ℚ) (text : Str)
    (hfail : humeAvailable cfg = false ∨ emoSvc = none) :
    (detect_emotions_fast cfg emoSvc pol text).1 = fallbackEmotion pol text ∧
    (detect_emotions_fast cfg emoSvc pol text).1.score = 1/2 ∧
    (∀ p : ℚ, pol text = some p →
      ((3 : ℚ)/10 < p →
        (detect_emotions_fast cfg emoSvc pol text).1.primary = String.toList "Joy") ∧
      (p < -((3 : ℚ)/10) →
        (detect_emotions_fast cfg emoSvc pol text).1.primary = String.toList "Sadness") ∧
      (¬((3 : ℚ)/10 < p) → ¬(p < -((3 : ℚ)/10)) →
        (detect_emotions_fast cfg emoSvc pol text).1.primary = String.toList "Calm")) ∧
    (pol text = none →
      (detect_emotions_fast cfg emoSvc pol text).1.primary = String.toList "Calm") := by
  have he := detect_fallback_eq cfg emoSvc pol text hfail
  have hprim : (detect_emotions_fast cfg emoSvc pol text).1.primary =
      sentimentEmotion (fallback_sentiment pol text) := by rw [he]; rfl
  refine ⟨he, by rw [he]; rfl, ?_, ?_⟩
  · intro p hp
    have hs := fallback_sentiment_some pol text p hp
    refine ⟨fun hgt => ?_, fun hlt => ?_, fun hng hnl => ?_⟩
    · rw [hprim, hs, if_pos hgt]
      decide
    · rw [hprim, hs, if_neg (by intro h1; linarith), if_pos hlt]
      decide
    · rw [hprim, hs, if_neg hng, if_neg hnl]
      decide
  · intro hp
    rw [hprim, fallback_sentiment_none pol text hp]
    decide

/-- Witness for `c7_fallback_deterministic` with no configured key and a
    positive polarity. -/
theorem c7_witness :
    (detect_emotions_fast ⟨none, true⟩ none (fun _ => some ((1 : ℚ)/2))
      (String.toList "great")).1.primary = String.toList "Joy" ∧
    (detect_emotions_fast ⟨none, true⟩ none (fun _ => some ((1 : ℚ)/2))
      (String.toList "great")).1.score = 1/2 := by
  have h := c7_fallback_deterministic ⟨none, true⟩ none
    (fun _ => some ((1 : ℚ)/2)) (String.toList "great") (Or.inl rfl)
  exact ⟨(h.2.2.1 (1/2) rfl).1 (by norm_num), h.2.1⟩

/-- The model list, spelled out. -/
theorem modelsToTry_eq :
    modelsToTry = [String.toList "claude-sonnet-4-5-20250929",
      String.toList "claude-3-5-sonnet-20241022"] := rfl

/-- The two-model attempt sequence, by cases on each outcome. -/
theorem tryModels_two (svc : Str → Option Str) (m1 m2 : Str) :
    tryModels svc [m1, m2] =
      (match svc m1 with
       | some r => (some r, [Ev.modelCall m1])
       | none =>
         match svc m2 with
         | some r => (some r, [Ev.modelCall m1, Ev.modelCall m2])
         | none => (none, [Ev.modelCall m1, Ev.modelCall m2])) := by
  cases hm1 : svc m1 <;> cases hm2 : svc m2 <;> simp [tryModels, hm1, hm2]

/-- With a configured client and no intent match, the pipeline is the model
    sequence with the emotion-aware fallback. -/
theorem process_no_intent (cfg : Cfg) (svc : Str → Option Str) (rng h mi : Nat)
    (dateStr : Str) (emotions : Option EmotionResult) (query : Str)
    (hc : cfg.anthropicClient = true)
    (ht : timeMatch query = false) (hd : dateMatch query = false) :
    process_with_claude cfg svc rng h mi dateStr emotions query =
      (match (tryModels svc modelsToTry).1 with
       | some r => (r, (tryModels svc modelsToTry).2)
       | none => (get_emotion_aware_response rng emotions,
          (tryModels svc modelsToTry).2)) := by
  unfold process_with_claude
  rw [ht, hd, hc]
  simp

/-- C8: with a configured model client and no deterministic-intent match,
    the pipeline returns the first model success in the fixed order, and on
    total failure falls back to the per-emotion table — 9 emotion buckets of
    3 replies each, the Calm bucket by default — without any exception
    reaching the caller (the embedding is a total function). -/
theorem c8_model_fallback (cfg : Cfg) (svc : Str → Option Str) (rng h mi : Nat)
    (dateStr : Str) (emotions : Option EmotionResult) (query : Str)
    (hc : cfg.anthropicClient = true)
    (ht : timeMatch query = false) (hd : dateMatch query = false) :
    (∀ s, svc (String.toList "claude-sonnet-4-5-20250929") = some s →
      (process_with_claude cfg svc rng h mi dateStr emotions query).1 = s) ∧
    (svc (String.toList "claude-sonnet-4-5-20250929") = none →
      ∀ s, svc (String.toList "claude-3-5-sonnet-20241022") = some s →
        (process_with_claude cfg svc rng h mi dateStr emotions query).1 = s) ∧
    (svc (String.toList "claude-sonnet-4-5-20250929") = none →
      svc (String.toList "claude-3-5-sonnet-20241022") = none →
      (process_with_claude cfg svc rng h mi dateStr emotions query).1 =
        get_emotion_aware_response rng emotions ∧
      (process_with_claude cfg svc rng h mi dateStr emotions query).1 ∈
        emotionLookup (primaryOf emotions)) ∧
    (emotionResponses.length = 9 ∧ ∀ pr ∈ emotionResponses, pr.2.length = 3) := by
  have hlk : emotionLookup (primaryOf emotions) ≠ [] := by
    intro hnil
    have h3 := emotionLookup_length (primaryOf emotions)
    rw [hnil] at h3
    simp at h3
  have hpn := process_no_intent cfg svc rng h mi dateStr emotions query hc ht hd
  rw [modelsToTry_eq, tryModels_two] at hpn
  refine ⟨?_, ?_, ?_, by decide, by decide⟩
  · intro s h1
    rw [hpn, h1]
  · intro h1 s h2
    rw [hpn, h1, h2]
  · intro h1 h2
    rw [hpn, h1, h2]
    exact ⟨rfl, by unfold get_emotion_aware_response; exact pyChoice_mem _ rng hlk⟩

/-- Witness for `c8_model_fallback`: both model attempts fail and the reply
    comes from the Calm bucket of the emotion table. -/
theorem c8_witness :
    timeMatch (String.toList "abc") = false ∧
    dateMatch (String.toList "abc") = false ∧
    (process_with_claude ⟨none, true⟩ (fun _ => none) 0 9 30 [] none
      (String.toList "abc")).1 ∈ emotionLookup (primaryOf none) := by
  refine ⟨by decide, by decide, ?_⟩
  exact ((c8_model_fallback ⟨none, true⟩ (fun _ => none) 0 9 30 [] none
    (String.toList "abc") rfl (by decide) (by decide)).2.2.1 rfl rfl).2
